import Mathlib

/-!
Verification of the filter-compilation and release subsystem of
`cogs/pokemon.py` (HOPE-NEXUS/poketwo), via a shallow embedding.

The embedding covers `Pokemon.parse_numerical_flag`, `Pokemon.create_filter`,
and the `pokemon` and `releaseall` commands.  Python exceptions (the
`IndexError` reachable in `parse_numerical_flag` on a single empty token)
are modelled with `Except Unit`; the "return None" rejection signal is the
`Option` layer, so the result type of fallible operations is
`Except Unit (Option _)`.  Message sends inside `create_filter` (the two
rejection notices) are not tracked as events; no verified property depends
on them.  Parts of the repository that are imported by `cogs/pokemon.py`
but are not present in the sources (the constants table, the Database cog,
the Paginator) are modelled from the specification and marked as such in
their doc comments.
-/

namespace Poketwo

/-- Comparison operator of a numeric IV filter: one of `<`, `=`, `>`. -/
inductive CmpOp
  | lt
  | eq
  | gt
deriving DecidableEq, Repr

/-- The seven numeric IV flags registered on the `pokemon` and `releaseall`
commands (`--hpiv --atkiv --defiv --spatkiv --spdefiv --spdiv --iv`). -/
inductive IVFlag
  | hpiv
  | atkiv
  | defiv
  | spatkiv
  | spdefiv
  | spdiv
  | iv
deriving DecidableEq, Repr

/-- One aggregation-pipeline stage, as built by `create_filter` and the two
commands.  Each constructor corresponds to one dict literal of the source:
`matchSpeciesIn ids` is a match on species id membership (rarity lists and
the type list), `matchSpeciesId` the name match, `matchFavorite` the
favorite match, `matchLevel` the level match, `addFields f` the computed
IV field for flag `f`, `matchIV f op n` the comparison match on that field,
`matchNumberNotEq` and `matchFavoriteNotEq` the two protection stages that
`releaseall` appends, and `addSorting`/`sortAsc` the two sorting stages the
`pokemon` command appends. -/
inductive Stage
  | matchSpeciesIn (ids : List Nat)
  | matchSpeciesId (id : Nat)
  | matchFavorite
  | matchLevel (n : Int)
  | addFields (f : IVFlag)
  | matchIV (f : IVFlag) (op : CmpOp) (n : Int)
  | matchNumberNotEq (n : Int)
  | matchFavoriteNotEq
  | addSorting (orderBy : String)
  | sortAsc
deriving DecidableEq, Repr

/-- Python `str.isdigit` restricted to ASCII: true when the string is
nonempty and every character is a decimal digit. -/
def pyIsdigit (s : String) : Bool :=
  s.length > 0 && s.data.all Char.isDigit

/-- Python `int(s)` on an all-digit string: base-10 value, hence always
non-negative. -/
def pyInt (s : String) : Nat :=
  s.data.foldl (fun a c => a * 10 + (c.toNat - 48)) 0

/-- The final validation of `parse_numerical_flag` (source lines 346-349):
`if ops[0] not in ("<", "=", ">") or not ops[1].isdigit(): return None;
return ops`.  Python short-circuits `or`, so `ops[1]` is only read when the
operator test passes; reading it from a one-element list would raise
(`.error`), which is unreachable from `parse_numerical_flag` itself. -/
def checkOps (ops : List String) : Except Unit (Option (List String)) :=
  match ops with
  | [] => .error ()
  | a :: rest =>
    if a = "<" ∨ a = "=" ∨ a = ">" then
      match rest with
      | [] => .error ()
      | b :: _ => if pyIsdigit b then .ok (some ops) else .ok none
    else .ok none

/-- `Pokemon.parse_numerical_flag` (source lines 334-349).  `text` is the
token list an `nargs="+"` flag received.  The source guards
`1 <= len(text) <= 2` (other lengths return `None`, the wildcard case),
then for a single token: an all-digit token becomes `["=", token]`; a
token whose first character is not a digit is split into first character
and rest.  Reading `text[0][0]` on a single empty token raises IndexError,
modelled as `.error ()`.  Two-token input is validated as-is. -/
def parse_numerical_flag (text : List String) : Except Unit (Option (List String)) :=
  match text with
  | [t] =>
    if pyIsdigit t then checkOps ["=", t]
    else if t = "" then .error ()
    else if ¬ t.front.isDigit then checkOps [t.front.toString, t.drop 1]
    else checkOps [t]
  | [a, b] => checkOps [a, b]
  | _ => .ok none

/-- The species/game-data catalog consumed by `create_filter`
(`GameData.list_mythical`, `list_legendary`, `list_ub`, `list_type`,
`species_by_name`).  `speciesByName` returns the species id, `none`
standing for `SpeciesNotFoundError`. -/
structure Catalog where
  mythical : List Nat
  legendary : List Nat
  ub : List Nat
  listType : String → List Nat
  speciesByName : String → Option Nat

/-- The flag mapping received by `create_filter`.  The source tests
`"flag" in flags and flags["flag"]` (truthiness) for the boolean and type
flags and `flags["flag"] is not None` for the rest; an absent key behaves
exactly like its falsy default, so absence and default are identified. -/
structure Flags where
  mythical : Bool := false
  legendary : Bool := false
  ub : Bool := false
  type : Option String := none
  favorite : Bool := false
  name : Option String := none
  level : Option Int := none
  hpiv : Option (List String) := none
  atkiv : Option (List String) := none
  defiv : Option (List String) := none
  spatkiv : Option (List String) := none
  spdefiv : Option (List String) := none
  spdiv : Option (List String) := none
  iv : Option (List String) := none
deriving DecidableEq, Repr

/-- Value of a numeric IV flag in a flag mapping. -/
def Flags.ivflag (fl : Flags) : IVFlag → Option (List String)
  | .hpiv => fl.hpiv
  | .atkiv => fl.atkiv
  | .defiv => fl.defiv
  | .spatkiv => fl.spatkiv
  | .spdefiv => fl.spdefiv
  | .spdiv => fl.spdiv
  | .iv => fl.iv

/-- Modelled from the spec: the `FILTER_BY_NUMERICAL` table lives in
`helpers/constants.py`, which is not among the sources.  The spec (§3,
§4.1 step 6) gives six per-stat IV flags plus a combined `iv` flag; the
flag names and their order are those of the command registrations
(source lines 491-497).  Each table entry pairs the flag with an
aggregation expression deriving the stat; the expressions themselves are
opaque here (`Stage.addFields` records only the flag, and the semantics
takes an expression-evaluation parameter). -/
def FILTER_BY_NUMERICAL : List IVFlag :=
  [.hpiv, .atkiv, .defiv, .spatkiv, .spdefiv, .spdiv, .iv]

/-- The `$addFields`/`$match` pair appended for one parsed numeric flag
(source lines 403-423): `ops[0]` selects the comparison, the match uses
`int(ops[1])`.  The source has no `else` branch, so an operator outside
`<`, `=`, `>` appends nothing (unreachable after validation). -/
def opStages (f : IVFlag) (ops : List String) : List Stage :=
  let a := ops.headD ""
  let b := (ops.drop 1).headD ""
  if a = "<" then [.addFields f, .matchIV f .lt (pyInt b)]
  else if a = "=" then [.addFields f, .matchIV f .eq (pyInt b)]
  else if a = ">" then [.addFields f, .matchIV f .gt (pyInt b)]
  else []

/-- The `for flag, expr in FILTER_BY_NUMERICAL.items()` loop of
`create_filter` (source lines 395-423), carrying the accumulated stage
list.  A flag whose value is `None` (or whose key is absent) is skipped;
a parse failure makes the whole call return `None`; a parse exception
propagates. -/
def ivLoop (fl : Flags) (acc : List Stage) : List IVFlag → Except Unit (Option (List Stage))
  | [] => .ok (some acc)
  | f :: rest =>
    match fl.ivflag f with
    | none => ivLoop fl acc rest
    | some text =>
      match parse_numerical_flag text with
      | .error e => .error e
      | .ok none => .ok none
      | .ok (some ops) => ivLoop fl (acc ++ opStages f ops) rest

/-- `Pokemon.create_filter` (source lines 351-425).  Builds the
aggregation list by successive appends: mythical, legendary, ub, type,
favorite, then the name lookup (whose failure rejects the whole call with
`None` after sending a notice), the level match, and finally the numeric
flag loop. -/
def create_filter (gd : Catalog) (fl : Flags) : Except Unit (Option (List Stage)) :=
  let a : List Stage := []
  let a := if fl.mythical then a ++ [Stage.matchSpeciesIn gd.mythical] else a
  let a := if fl.legendary then a ++ [Stage.matchSpeciesIn gd.legendary] else a
  let a := if fl.ub then a ++ [Stage.matchSpeciesIn gd.ub] else a
  let a := match fl.type with
           | some t => if t ≠ "" then a ++ [Stage.matchSpeciesIn (gd.listType t)] else a
           | none => a
  let a := if fl.favorite then a ++ [Stage.matchFavorite] else a
  match fl.name with
  | some n =>
    match gd.speciesByName n with
    | none => .ok none
    | some sid =>
      let a := a ++ [Stage.matchSpeciesId sid]
      let a := match fl.level with
               | some lv => a ++ [Stage.matchLevel lv]
               | none => a
      ivLoop fl a FILTER_BY_NUMERICAL
  | none =>
    let a := match fl.level with
             | some lv => a ++ [Stage.matchLevel lv]
             | none => a
    ivLoop fl a FILTER_BY_NUMERICAL

/-! ## Spec-side descriptions (for refinement claims)

The following definitions follow the words of the specification (and of
the amended claim texts); they are compared with the source-derived
definitions above by the claim theorems. -/

/-- Spec-side description of `parse_numerical_flag`, following the amended
claim wording: a single all-digit token yields `=` with that token; a
single nonempty token with a non-digit first character yields that
character as operator and the rest as operand, valid only when the
operator is `<`, `=` or `>` and the operand is all digits; a two-token
sequence is valid exactly when its first token is `<`, `=` or `>` and its
second is all digits; a single empty token raises; everything else is
rejected. -/
def parse_spec_amended (text : List String) : Except Unit (Option (List String)) :=
  match text with
  | [t] =>
    if pyIsdigit t then .ok (some ["=", t])
    else if t = "" then .error ()
    else if t.front.isDigit then .ok none
    else if (t.front = '<' ∨ t.front = '=' ∨ t.front = '>') ∧ pyIsdigit (t.drop 1)
    then .ok (some [t.front.toString, t.drop 1])
    else .ok none
  | [a, b] =>
    if (a = "<" ∨ a = "=" ∨ a = ">") ∧ pyIsdigit b
    then .ok (some [a, b])
    else .ok none
  | _ => .ok none

/-- Spec-side description of the numeric-flag part of the pipeline: each
present flag, in table order, contributes its own `$addFields`/`$match`
pair, independently of the others. -/
def ivParts (fl : Flags) : List IVFlag → Except Unit (Option (List Stage))
  | [] => .ok (some [])
  | f :: rest =>
    match fl.ivflag f with
    | none => ivParts fl rest
    | some text =>
      match parse_numerical_flag text with
      | .error e => .error e
      | .ok none => .ok none
      | .ok (some ops) =>
        match ivParts fl rest with
        | .error e => .error e
        | .ok none => .ok none
        | .ok (some l) => .ok (some (opStages f ops ++ l))

/-- Spec-side description of the boolean/type/favorite part of the
pipeline: one independent match stage per set flag, in the fixed order
mythical, legendary, ub, type, favorite. -/
def boolTypeStages (gd : Catalog) (fl : Flags) : List Stage :=
  (if fl.mythical then [Stage.matchSpeciesIn gd.mythical] else []) ++
  (if fl.legendary then [Stage.matchSpeciesIn gd.legendary] else []) ++
  (if fl.ub then [Stage.matchSpeciesIn gd.ub] else []) ++
  (match fl.type with
   | some t => if t ≠ "" then [Stage.matchSpeciesIn (gd.listType t)] else []
   | none => []) ++
  (if fl.favorite then [Stage.matchFavorite] else [])

/-- Spec-side description of the whole compile: the stage list is the
concatenation, in the fixed processing order, of the boolean/type/favorite
matches, the name match (rejecting the whole compile when the species is
unknown), the level match, and the numeric-flag pairs. -/
def spec_ordered_filter (gd : Catalog) (fl : Flags) : Except Unit (Option (List Stage)) :=
  match fl.name with
  | some n =>
    match gd.speciesByName n with
    | none => .ok none
    | some sid =>
      match ivParts fl FILTER_BY_NUMERICAL with
      | .error e => .error e
      | .ok none => .ok none
      | .ok (some ivs) =>
        .ok (some (boolTypeStages gd fl ++ [Stage.matchSpeciesId sid] ++
          (match fl.level with
           | some lv => [Stage.matchLevel lv]
           | none => []) ++ ivs))
  | none =>
    match ivParts fl FILTER_BY_NUMERICAL with
    | .error e => .error e
    | .ok none => .ok none
    | .ok (some ivs) =>
      .ok (some (boolTypeStages gd fl ++
        (match fl.level with
         | some lv => [Stage.matchLevel lv]
         | none => []) ++ ivs))

/-! ## Messages, events and the persistence-layer model -/

/-- The user-visible messages the two commands send (texts abbreviated to
constructors; `confirmPrompt num` is the prompt that displays the count
and instructs the user to type the confirmation token for `num`). -/
inductive Msg
  | pagePositive
  | filterRejected
  | noMatches
  | confirmPrompt (num : Nat)
  | aborted
  | timeoutAborted
  | releasing (num : Nat)
  | released (num : Nat)
deriving DecidableEq, Repr

/-- Observable steps of a command invocation: message sends, the console
print of the pipeline, and the persistence-layer calls
(`fetch_member_info`, `fetch_pokemon_count`, `fetch_pokemon_list`,
`update_member` with the `$pull` of the listed numbers), plus the
hand-off to the Paginator with its page count and requested index. -/
inductive Event
  | send (m : Msg)
  | consolePrint
  | fetchMemberInfo
  | countQuery (aggs : List Stage)
  | fetchList (offset limit : Nat) (aggs : List Stage)
  | updateMember (pulled : List Int)
  | paginate (numPages : Nat) (initIdx : Int)
deriving DecidableEq, Repr

/-- `True` exactly for events that touch the persistence layer. -/
def Event.isDb : Event → Bool
  | .fetchMemberInfo => true
  | .countQuery _ => true
  | .fetchList _ _ _ => true
  | .updateMember _ => true
  | _ => false

/-- One entry of a member's collection, with the fields the verified
pipeline stages inspect. -/
structure Poke where
  number : Int
  species_id : Nat
  level : Int
  favorite : Bool
deriving DecidableEq, Repr

/-- A document flowing through the aggregation pipeline: the collection
entry plus the computed fields added by `$addFields` stages (an
association list; the most recent binding shadows older ones). -/
structure Doc where
  poke : Poke
  added : List (IVFlag × Int)
deriving DecidableEq, Repr

/-- Modelled from the spec: evaluation of one pipeline stage over the
document list.  The Database cog that executes pipelines is not among the
sources; §6 gives the persistence capabilities (`count`, `fetchPage`) as
queries scoped by the filter stages, and §4.1 fixes the meaning of each
stage (match = field predicate, computed-field = derive a named scalar).
`ivE` evaluates the opaque per-stat IV expressions.  The two sorting
stages only reorder documents; they are modelled as the identity because
no verified claim depends on result order. -/
def evalStage (ivE : IVFlag → Poke → Int) (ds : List Doc) : Stage → List Doc
  | .matchSpeciesIn ids => ds.filter fun d => decide (d.poke.species_id ∈ ids)
  | .matchSpeciesId i => ds.filter fun d => decide (d.poke.species_id = i)
  | .matchFavorite => ds.filter fun d => d.poke.favorite
  | .matchLevel n => ds.filter fun d => decide (d.poke.level = n)
  | .addFields f => ds.map fun d => ⟨d.poke, (f, ivE f d.poke) :: d.added⟩
  | .matchIV f op n => ds.filter fun d =>
      match d.added.lookup f with
      | some v =>
        match op with
        | .lt => decide (v < n)
        | .eq => decide (v = n)
        | .gt => decide (n < v)
      | none => false
  | .matchNumberNotEq n => ds.filter fun d => decide (¬ d.poke.number = n)
  | .matchFavoriteNotEq => ds.filter fun d => ! d.poke.favorite
  | .addSorting _ => ds
  | .sortAsc => ds

/-- Folding a pipeline over a document list. -/
def evalStages (ivE : IVFlag → Poke → Int) (aggs : List Stage) (ds : List Doc) : List Doc :=
  aggs.foldl (evalStage ivE) ds

/-- The documents a member's collection enters the pipeline as. -/
def docsOf (coll : List Poke) : List Doc :=
  coll.map fun p => ⟨p, []⟩

/-- Modelled from the spec: running a pipeline over a collection. -/
def evalPipeline (ivE : IVFlag → Poke → Int) (aggs : List Stage) (coll : List Poke) : List Doc :=
  evalStages ivE aggs (docsOf coll)

/-- Modelled from the spec (§6 `count(filterStages) -> integer`):
`fetch_pokemon_count` reports the number of documents the pipeline
retains. -/
def countMatches (ivE : IVFlag → Poke → Int) (aggs : List Stage) (coll : List Poke) : Nat :=
  (evalPipeline ivE aggs coll).length

/-- Modelled from the spec (§6 `fetchPage(filterStages, offset, limit)`):
`fetch_pokemon_list` returns the window of the pipeline result starting
at `offset` with at most `limit` documents. -/
def fetchPage (ivE : IVFlag → Poke → Int) (aggs : List Stage) (offset limit : Nat)
    (coll : List Poke) : List Doc :=
  ((evalPipeline ivE aggs coll).drop offset).take limit

/-- Modelled from the spec (§6 `mutate(matchCriteria, update)`): the
`$pull` update removes from the collection every entry whose number is in
the given list. -/
def pullNumbers (coll : List Poke) (nums : List Int) : List Poke :=
  coll.filter fun p => decide (¬ p.number ∈ nums)

/-- Modelled from the spec: the Paginator (`helpers/pagination.py`) is not
among the sources.  §4.2: the controller clamps the requested initial
index into `[0, totalPages-1]`. -/
def pageClamp (i : Int) (total : Nat) : Int :=
  min (max i 0) ((total : Int) - 1)

/-! ## The two commands -/

/-- The flags registered on `releaseall` (source lines 489-497): only
`--name`, `--type` and the seven numeric IV flags. -/
structure RAFlags where
  name : Option String := none
  type : Option String := none
  hpiv : Option (List String) := none
  atkiv : Option (List String) := none
  defiv : Option (List String) := none
  spatkiv : Option (List String) := none
  spdefiv : Option (List String) := none
  spdiv : Option (List String) := none
  iv : Option (List String) := none
deriving DecidableEq, Repr

/-- The flag mapping `releaseall` hands to `create_filter`: the
unregistered keys are absent, which `create_filter` treats exactly like
their falsy defaults. -/
def RAFlags.toFlags (fl : RAFlags) : Flags :=
  { name := fl.name, type := fl.type,
    hpiv := fl.hpiv, atkiv := fl.atkiv, defiv := fl.defiv,
    spatkiv := fl.spatkiv, spdefiv := fl.spdefiv, spdiv := fl.spdiv,
    iv := fl.iv }

/-- The confirmation token `releaseall` demands: `confirm release {num}`
for the displayed count `num` (source line 542). -/
def confirmToken (num : Nat) : String :=
  "confirm release " ++ toString num

/-- The two protection stages `releaseall` appends to every compiled
filter (source lines 510-515): exclude the selected number and all
favorited entries. -/
def protections (selected : Int) : List Stage :=
  [.matchNumberNotEq selected, .matchFavoriteNotEq]

/-- `Pokemon.releaseall` (source lines 500-561) as a trace of events plus
the resulting collection.  `collCount` is the collection when the count
query runs, `collFetch` the (possibly different) collection when the
page fetch and mutation run, capturing writes that land between the two.
`reply` is the first message by the invoking user in the invoking channel
within the 15 second wait (`none` = timeout).  A filter rejection or a
parse exception ends the command before any persistence call. -/
def releaseall (gd : Catalog) (ivE : IVFlag → Poke → Int) (fl : RAFlags) (selected : Int)
    (collCount collFetch : List Poke) (reply : Option String) : List Event × List Poke :=
  match create_filter gd fl.toFlags with
  | .error _ => ([], collFetch)
  | .ok none => ([], collFetch)
  | .ok (some aggs0) =>
    let aggs := aggs0 ++ protections selected
    let num := countMatches ivE aggs collCount
    if num = 0 then
      ([.fetchMemberInfo, .consolePrint, .countQuery aggs, .send .noMatches], collFetch)
    else
      match reply with
      | none =>
        ([.fetchMemberInfo, .consolePrint, .countQuery aggs,
          .send (.confirmPrompt num), .send .timeoutAborted], collFetch)
      | some r =>
        if r = confirmToken num then
          let page := fetchPage ivE aggs 0 num collFetch
          let nums := page.map fun d => d.poke.number
          ([.fetchMemberInfo, .consolePrint, .countQuery aggs,
            .send (.confirmPrompt num), .send (.releasing num),
            .fetchList 0 num aggs, .updateMember nums, .send (.released num)],
           pullNumbers collFetch nums)
        else
          ([.fetchMemberInfo, .consolePrint, .countQuery aggs,
            .send (.confirmPrompt num), .send .aborted], collFetch)

/-- `Pokemon.pokemon` (source lines 585-656) as a trace of events: the
page-positivity guard, the filter compile, the sorting stages, the count
query, and either the empty-result message or the hand-off to the
Paginator with `ceil(num / 20)` pages and requested index `page - 1`. -/
def pokemonCmd (gd : Catalog) (ivE : IVFlag → Poke → Int) (fl : Flags) (page : Int)
    (orderBy : String) (coll : List Poke) : List Event :=
  if page < 1 then [.send .pagePositive]
  else
    match create_filter gd fl with
    | .error _ => []
    | .ok none => []
    | .ok (some aggs0) =>
      let aggs := aggs0 ++ [.addSorting orderBy, .sortAsc]
      let num := countMatches ivE aggs coll
      if num = 0 then [.fetchMemberInfo, .countQuery aggs, .send .noMatches]
      else [.fetchMemberInfo, .countQuery aggs, .paginate ((num + 19) / 20) (page - 1)]

/-- One invocation of `create_filter` threaded through a world state (the
log of messages the channel has seen): the result and the grown log.
The compile reads nothing from the world. -/
def create_filter_invoke (gd : Catalog) (fl : Flags) (log : List Msg) :
    Except Unit (Option (List Stage)) × List Msg :=
  match create_filter gd fl with
  | .ok none => (.ok none, log ++ [Msg.filterRejected])
  | r => (r, log)

/-! ## Helper lemmas -/

lemma char_toString_inj {c d : Char} : c.toString = d.toString ↔ c = d := by
  constructor
  · intro h
    have h2 : (c.toString).data = (d.toString).data := by rw [h]
    simpa [Char.toString, String.singleton] using h2
  · intro h
    rw [h]

/-! ## Claim C1 -/

/-- C1, counterexample: the claim states that every token-sequence shape
other than the two accepted single-token forms is rejected and that the
parser never crashes; but the code accepts the two-token sequence
`["<", "12"]`, and raises (IndexError on `text[0][0]`) on the single
empty token. -/
theorem c1_counterexample :
    parse_numerical_flag ["<", "12"] = .ok (some ["<", "12"]) ∧
    parse_numerical_flag [""] = .error () := by
  exact ⟨rfl, rfl⟩

/-- C1, amended: `parse_numerical_flag` behaves as `parse_spec_amended`
describes — a single all-digit token yields `=` with that token as
operand; a single nonempty non-digit-leading token splits first character
as operator and rest as operand, accepted only when the operator is one
of `<`, `=`, `>` and the operand is all digits; a two-token sequence is
accepted exactly when its first token is such an operator and its second
token is all digits; a single empty token raises an IndexError; every
other shape is rejected with the invalid signal.  Accepted operands are
therefore always all-digit strings, i.e. non-negative base-10 integers. -/
theorem c1_parse_numerical_flag_amended (text : List String) :
    parse_numerical_flag text = parse_spec_amended text := by
  match text with
  | [] => rfl
  | _ :: _ :: _ :: _ => rfl
  | [a, b] =>
    simp only [parse_numerical_flag, parse_spec_amended, checkOps]
    by_cases hm : a = "<" ∨ a = "=" ∨ a = ">"
    · by_cases hd : pyIsdigit b <;> simp [hm, hd]
    · simp [hm]
  | [t] =>
    simp only [parse_numerical_flag, parse_spec_amended]
    by_cases h1 : pyIsdigit t
    · simp [h1, checkOps]
    · by_cases h2 : t = ""
      · subst h2; rfl
      · by_cases h3 : t.front.isDigit
        · simp only [h1, h2, h3, if_neg, if_false, ite_true, ite_false, not_true,
            Bool.false_eq_true, if_true]
          have hne : ¬ (t = "<" ∨ t = "=" ∨ t = ">") := by
            rintro (rfl | rfl | rfl) <;> revert h3 <;> decide
          simp [checkOps, hne, h1, h2, h3]
        · have hlt : (t.front.toString = "<") ↔ (t.front = '<') := by
            rw [show "<" = '<'.toString from rfl, char_toString_inj]
          have heq : (t.front.toString = "=") ↔ (t.front = '=') := by
            rw [show "=" = '='.toString from rfl, char_toString_inj]
          have hgt : (t.front.toString = ">") ↔ (t.front = '>') := by
            rw [show ">" = '>'.toString from rfl, char_toString_inj]
          by_cases hm : t.front = '<' ∨ t.front = '=' ∨ t.front = '>'
          · by_cases hd : pyIsdigit (t.drop 1) <;>
              simp [h1, h2, h3, checkOps, hlt, heq, hgt, hm, hd]
          · simp [h1, h2, h3, checkOps, hlt, heq, hgt, hm]

/-! ## Claims C3, C4 and C5 -/

lemma append_if_block (b : Bool) (x : List Stage) (s : Stage) :
    (if b then x ++ [s] else x) = x ++ (if b then [s] else []) := by
  cases b <;> simp

lemma append_type_block (gd : Catalog) (fl : Flags) (x : List Stage) :
    (match fl.type with
     | some t => if t ≠ "" then x ++ [Stage.matchSpeciesIn (gd.listType t)] else x
     | none => x) =
    x ++ (match fl.type with
          | some t => if t ≠ "" then [Stage.matchSpeciesIn (gd.listType t)] else []
          | none => []) := by
  rcases fl.type with _ | t
  · simp
  · by_cases h : t = "" <;> simp [h]

lemma ivLoop_skip (fl : Flags) (h : ∀ f, fl.ivflag f = none) :
    ∀ fs acc, ivLoop fl acc fs = .ok (some acc) := by
  intro fs
  induction fs with
  | nil => intro acc; simp [ivLoop]
  | cons f rest ih => intro acc; simp only [ivLoop, h f]; exact ih acc

/-- C3: a flag mapping with no name, level or numeric IV flag — only the
boolean rarity flags, the favorite flag and/or a type value — always
compiles successfully (never rejects and never raises), and the result is
exactly the independent rarity/type/favorite match stages in order, one
per set flag (so simultaneous rarity flags intersect), empty when no flag
is set. -/
theorem c3_boolean_flags_always_compile (gd : Catalog) (fl : Flags)
    (hn : fl.name = none) (hl : fl.level = none) (hiv : ∀ f, fl.ivflag f = none) :
    create_filter gd fl = .ok (some (boolTypeStages gd fl)) := by
  unfold create_filter boolTypeStages
  simp only [append_if_block, append_type_block gd fl, List.nil_append, hn, hl]
  rw [ivLoop_skip fl hiv]

/-- C3 witness: two rarity flags set together compile to their two
independent match stages. -/
theorem c3_boolean_flags_always_compile_witness :
    create_filter ⟨[1], [2], [3], fun _ => [], fun _ => none⟩ { mythical := true, ub := true } =
      .ok (some (boolTypeStages ⟨[1], [2], [3], fun _ => [], fun _ => none⟩
        { mythical := true, ub := true })) :=
  c3_boolean_flags_always_compile _ _ rfl rfl (fun f => by cases f <;> rfl)

lemma ivLoop_append (fl : Flags) (fs : List IVFlag) :
    ∀ acc, ivLoop fl acc fs =
      match ivParts fl fs with
      | .error e => .error e
      | .ok none => .ok none
      | .ok (some l) => .ok (some (acc ++ l)) := by
  induction fs with
  | nil => intro acc; simp [ivLoop, ivParts]
  | cons f rest ih =>
    intro acc
    simp only [ivLoop, ivParts]
    cases hf : fl.ivflag f with
    | none => simp only [hf]; exact ih acc
    | some text =>
      simp only [hf]
      cases hp : parse_numerical_flag text with
      | error e => simp only [hp]
      | ok o =>
        cases o with
        | none => simp only [hp]
        | some ops =>
          simp only [hp]
          rw [ih (acc ++ opStages f ops)]
          cases hiv : ivParts fl rest with
          | error e => simp only [hiv]
          | ok o2 =>
            cases o2 with
            | none => simp only [hiv]
            | some l => simp [hiv, List.append_assoc]

lemma create_filter_eq_ordered (gd : Catalog) (fl : Flags) :
    create_filter gd fl = spec_ordered_filter gd fl := by
  unfold create_filter spec_ordered_filter boolTypeStages
  simp only [append_if_block, append_type_block gd fl, List.nil_append]
  cases hn : fl.name with
  | none =>
    simp only [hn]
    cases hl : fl.level with
    | none =>
      simp only [hl, ivLoop_append]
      cases hiv : ivParts fl FILTER_BY_NUMERICAL with
      | error e => simp only [hiv]
      | ok o => cases o with
        | none => simp only [hiv]
        | some l => simp [hiv, List.append_assoc]
    | some lv =>
      simp only [hl, ivLoop_append]
  | some n =>
    simp only [hn]
    cases hs : gd.speciesByName n with
    | none => simp only [hs]
    | some sid =>
      simp only [hs]
      cases hl : fl.level with
      | none =>
        simp only [hl, ivLoop_append]
        cases hiv : ivParts fl FILTER_BY_NUMERICAL with
        | error e => simp only [hiv]
        | ok o => cases o with
          | none => simp only [hiv]
          | some l => simp [hiv, List.append_assoc]
      | some lv =>
        simp only [hl, ivLoop_append]

/-- C4: on every successful compile the stage list follows the fixed
processing order mythical, legendary, ub, type, favorite, name, level,
then the numeric IV flags, and each present numeric flag contributes its
`$addFields` stage immediately followed by its `$match` stage with the
parsed operator and integer operand — i.e. `create_filter` coincides with
the manifestly ordered `spec_ordered_filter`. -/
theorem c4_create_filter_fixed_order (gd : Catalog) (fl : Flags) :
    create_filter gd fl = spec_ordered_filter gd fl :=
  create_filter_eq_ordered gd fl

/-- C5: compiling the same flag mapping twice against the same catalog
yields structurally identical results; the second invocation runs in the
world state the first one left behind, and its outcome does not depend on
it — no state is carried between invocations. -/
theorem c5_create_filter_deterministic (gd : Catalog) (fl : Flags) (log : List Msg) :
    (create_filter_invoke gd fl ((create_filter_invoke gd fl log).2)).1
      = (create_filter_invoke gd fl log).1 := by
  unfold create_filter_invoke
  cases h : create_filter gd fl with
  | error e => simp
  | ok o => cases o with
    | none => simp
    | some l => simp

/-! ## Claim C2 -/

/-- C2: when `create_filter` rejects (returns the `None` signal, after an
unknown species name or an unparseable numeric flag), it returns no
partial stage list, and both callers — the `pokemon` command and the
`releaseall` command — terminate without issuing any persistence-layer
query (no member fetch, no count, no page fetch, no mutation), leaving
the collection unchanged. -/
theorem c2_rejection_no_persistence (gd : Catalog) (ivE : IVFlag → Poke → Int)
    (fl : Flags) (page : Int) (orderBy : String) (coll : List Poke)
    (fl2 : RAFlags) (selected : Int) (collCount collFetch : List Poke) (reply : Option String)
    (h1 : create_filter gd fl = .ok none)
    (h2 : create_filter gd fl2.toFlags = .ok none) :
    (∀ e ∈ pokemonCmd gd ivE fl page orderBy coll, e.isDb = false) ∧
    (∀ e ∈ (releaseall gd ivE fl2 selected collCount collFetch reply).1, e.isDb = false) ∧
    (releaseall gd ivE fl2 selected collCount collFetch reply).2 = collFetch := by
  refine ⟨?_, ?_, ?_⟩
  · intro e he
    unfold pokemonCmd at he
    by_cases hp : page < 1
    · simp only [hp, if_true] at he
      simp only [List.mem_singleton] at he
      subst he
      rfl
    · simp [hp, h1] at he
  · intro e he
    unfold releaseall at he
    simp [h2] at he
  · unfold releaseall
    simp [h2]

/-- C2 witness: an unknown species name rejects the compile, and both
commands then perform no persistence-layer call. -/
theorem c2_rejection_no_persistence_witness :
    (∀ e ∈ pokemonCmd ⟨[], [], [], fun _ => [], fun _ => none⟩ (fun _ _ => 0)
        { name := some "missingno" } 1 "number" [], e.isDb = false) ∧
    (∀ e ∈ (releaseall ⟨[], [], [], fun _ => [], fun _ => none⟩ (fun _ _ => 0)
        { name := some "missingno" } 1 [] [⟨1, 1, 1, false⟩] none).1, e.isDb = false) ∧
    (releaseall ⟨[], [], [], fun _ => [], fun _ => none⟩ (fun _ _ => 0)
        { name := some "missingno" } 1 [] [⟨1, 1, 1, false⟩] none).2 = [⟨1, 1, 1, false⟩] :=
  c2_rejection_no_persistence _ _ _ _ _ _ _ _ _ _ _ rfl rfl

/-! ## Pipeline semantics lemmas (for C6 and C10) -/

lemma evalStage_poke_sub (ivE : IVFlag → Poke → Int) (s : Stage) (ds : List Doc) :
    ∀ d ∈ evalStage ivE ds s, d.poke ∈ ds.map Doc.poke := by
  intro d hd
  cases s <;> simp only [evalStage] at hd
  case addFields f =>
    simp only [List.mem_map] at hd ⊢
    obtain ⟨d0, hd0, rfl⟩ := hd
    exact ⟨d0, hd0, rfl⟩
  all_goals
    first
    | (exact List.mem_map_of_mem Doc.poke hd)
    | (exact List.mem_map_of_mem Doc.poke (List.mem_of_mem_filter hd))

lemma evalStages_poke_sub (ivE : IVFlag → Poke → Int) :
    ∀ (aggs : List Stage) (ds : List Doc) (d : Doc),
      d ∈ evalStages ivE aggs ds → d.poke ∈ ds.map Doc.poke := by
  intro aggs
  induction aggs with
  | nil => intro ds d hd; exact List.mem_map_of_mem Doc.poke hd
  | cons s rest ih =>
    intro ds d hd
    have h1 : d.poke ∈ (evalStage ivE ds s).map Doc.poke := ih _ d hd
    simp only [List.mem_map] at h1
    obtain ⟨d1, hd1, he⟩ := h1
    rw [← he]
    exact evalStage_poke_sub ivE s ds d1 hd1

lemma mem_evalPipeline_poke (ivE : IVFlag → Poke → Int) (aggs : List Stage)
    (coll : List Poke) (d : Doc) (hd : d ∈ evalPipeline ivE aggs coll) :
    d.poke ∈ coll := by
  have h := evalStages_poke_sub ivE aggs (docsOf coll) d hd
  simp only [docsOf, List.map_map, List.mem_map] at h
  obtain ⟨p, hp, he⟩ := h
  simpa [← he] using hp

lemma evalStages_append (ivE : IVFlag → Poke → Int) (xs ys : List Stage) (ds : List Doc) :
    evalStages ivE (xs ++ ys) ds = evalStages ivE ys (evalStages ivE xs ds) :=
  List.foldl_append _ _ _ _

lemma mem_protections_iff (ivE : IVFlag → Poke → Int) (sel : Int) (ds : List Doc) (d : Doc) :
    d ∈ evalStages ivE (protections sel) ds ↔
      d ∈ ds ∧ d.poke.number ≠ sel ∧ d.poke.favorite = false := by
  simp [protections, evalStages, evalStage, List.mem_filter, and_assoc]
  tauto

/-! ## Claim C6 -/

/-- C6: `releaseall` always extends the compiled filter with the two
protection match stages (exclude the selected number, exclude favorited
entries) before the count query and before the mutation; consequently the
counted set contains no favorited or selected entry, and a favorited or
selected entry of the collection always survives the mutation. -/
theorem c6_protected_entries_excluded (gd : Catalog) (ivE : IVFlag → Poke → Int)
    (fl : RAFlags) (selected : Int) (collCount collFetch : List Poke) (reply : Option String)
    (aggs0 : List Stage)
    (h1 : create_filter gd fl.toFlags = .ok (some aggs0))
    (hnodup : (collFetch.map Poke.number).Nodup) :
    (∀ a, Event.countQuery a ∈ (releaseall gd ivE fl selected collCount collFetch reply).1 →
       a = aggs0 ++ protections selected) ∧
    (∀ o lim a,
       Event.fetchList o lim a ∈ (releaseall gd ivE fl selected collCount collFetch reply).1 →
       a = aggs0 ++ protections selected) ∧
    (∀ d ∈ evalPipeline ivE (aggs0 ++ protections selected) collCount,
       d.poke.favorite = false ∧ d.poke.number ≠ selected) ∧
    (∀ p ∈ collFetch, (p.favorite = true ∨ p.number = selected) →
       p ∈ (releaseall gd ivE fl selected collCount collFetch reply).2) := by
  have hpipe : ∀ (coll : List Poke) (d : Doc),
      d ∈ evalPipeline ivE (aggs0 ++ protections selected) coll →
      d.poke.favorite = false ∧ d.poke.number ≠ selected := by
    intro coll d hd
    unfold evalPipeline at hd
    rw [evalStages_append] at hd
    rw [mem_protections_iff] at hd
    exact ⟨hd.2.2, hd.2.1⟩
  have hsurvive : ∀ p ∈ collFetch, (p.favorite = true ∨ p.number = selected) →
      ∀ num, p ∈ pullNumbers collFetch
        ((fetchPage ivE (aggs0 ++ protections selected) 0 num collFetch).map
          fun d => d.poke.number) := by
    intro p hp hprot num
    rw [pullNumbers, List.mem_filter]
    refine ⟨hp, ?_⟩
    simp only [decide_eq_true_eq, List.mem_map, not_exists, not_and]
    intro d hd heq
    have hd2 : d ∈ evalPipeline ivE (aggs0 ++ protections selected) collFetch := by
      have := List.mem_of_mem_take hd
      exact List.mem_of_mem_drop this
    have hcond := hpipe collFetch d hd2
    have hmem : d.poke ∈ collFetch := mem_evalPipeline_poke ivE _ _ d hd2
    rcases hprot with hfav | hsel
    · have hexact : p = d.poke := List.inj_on_of_nodup_map hnodup hp hmem heq.symm
      rw [hexact] at hfav
      rw [hfav] at hcond
      exact absurd hcond.1 (by simp)
    · exact hcond.2 (heq.trans hsel)
  refine ⟨?_, ?_, fun d hd => hpipe collCount d hd, ?_⟩
  · intro a ha
    unfold releaseall at ha
    simp only [h1] at ha
    rcases reply with _ | r
    · split at ha <;> simp_all
    · by_cases hc : r = confirmToken (countMatches ivE (aggs0 ++ protections selected) collCount) <;>
        (split at ha <;> (try split at ha) <;> simp_all [hc])
  · intro o lim a ha
    unfold releaseall at ha
    simp only [h1] at ha
    rcases reply with _ | r
    · split at ha <;> simp_all
    · by_cases hc : r = confirmToken (countMatches ivE (aggs0 ++ protections selected) collCount) <;>
        (split at ha <;> (try split at ha) <;> simp_all [hc])
  · intro p hp hprot
    unfold releaseall
    simp only [h1]
    split
    · exact hp
    · rcases hr : reply with _ | r
      · exact hp
      · by_cases hc : r = confirmToken (countMatches ivE (aggs0 ++ protections selected) collCount)
        · simp only [hc, if_pos rfl]
          exact hsurvive p hp hprot _
        · simp only [if_neg hc]
          exact hp

/-- C6 witness: a favorited entry matching the (empty) user filter is
excluded from the counted set and survives the command. -/
theorem c6_protected_entries_excluded_witness :
    (∀ a, Event.countQuery a ∈ (releaseall ⟨[], [], [], fun _ => [], fun _ => none⟩
        (fun _ _ => 0) {} 5 [⟨1, 1, 1, true⟩] [⟨1, 1, 1, true⟩] none).1 →
       a = [] ++ protections 5) ∧
    (∀ o lim a, Event.fetchList o lim a ∈ (releaseall ⟨[], [], [], fun _ => [], fun _ => none⟩
        (fun _ _ => 0) {} 5 [⟨1, 1, 1, true⟩] [⟨1, 1, 1, true⟩] none).1 →
       a = [] ++ protections 5) ∧
    (∀ d ∈ evalPipeline (fun _ _ => 0) ([] ++ protections 5) [⟨1, 1, 1, true⟩],
       d.poke.favorite = false ∧ d.poke.number ≠ 5) ∧
    (∀ p ∈ ([⟨1, 1, 1, true⟩] : List Poke), (p.favorite = true ∨ p.number = 5) →
       p ∈ (releaseall ⟨[], [], [], fun _ => [], fun _ => none⟩
        (fun _ _ => 0) {} 5 [⟨1, 1, 1, true⟩] [⟨1, 1, 1, true⟩] none).2) :=
  c6_protected_entries_excluded ⟨[], [], [], fun _ => [], fun _ => none⟩ (fun _ _ => 0)
    {} 5 [⟨1, 1, 1, true⟩] [⟨1, 1, 1, true⟩] none [] rfl (by decide)

/-! ## Claim C7 -/

/-- C7: once `releaseall` has displayed the confirmation prompt for count
`num`, the bulk mutation runs if and only if the awaited reply is exactly
the token `confirm release {num}`; on timeout the command sends the
timeout abort message, on any other reply the abort message, and in both
cases no mutation event occurs and the stored collection is unchanged. -/
theorem c7_confirmation_gates_mutation (gd : Catalog) (ivE : IVFlag → Poke → Int)
    (fl : RAFlags) (selected : Int) (collCount collFetch : List Poke) (reply : Option String)
    (aggs0 : List Stage) (num : Nat)
    (h1 : create_filter gd fl.toFlags = .ok (some aggs0))
    (h2 : countMatches ivE (aggs0 ++ protections selected) collCount = num)
    (h3 : num ≠ 0) :
    ((∃ ns, Event.updateMember ns ∈ (releaseall gd ivE fl selected collCount collFetch reply).1)
        ↔ reply = some (confirmToken num)) ∧
    (reply = none →
       Event.send .timeoutAborted ∈ (releaseall gd ivE fl selected collCount collFetch reply).1 ∧
       (releaseall gd ivE fl selected collCount collFetch reply).2 = collFetch) ∧
    (∀ r, reply = some r → r ≠ confirmToken num →
       Event.send .aborted ∈ (releaseall gd ivE fl selected collCount collFetch reply).1 ∧
       (releaseall gd ivE fl selected collCount collFetch reply).2 = collFetch) := by
  subst h2
  unfold releaseall
  simp only [h1]
  rw [if_neg h3]
  rcases reply with _ | r
  · simp
  · by_cases hc : r = confirmToken (countMatches ivE (aggs0 ++ protections selected) collCount)
    · subst hc
      simp
    · simp [hc]

/-- C7 witness: with one matching entry, the exact token `confirm release 1`
triggers the mutation, and the timeout and mismatch conclusions hold
vacuously or concretely. -/
theorem c7_confirmation_gates_mutation_witness :
    ((∃ ns, Event.updateMember ns ∈ (releaseall ⟨[], [], [], fun _ => [], fun _ => none⟩
        (fun _ _ => 0) {} 5 [⟨1, 1, 1, false⟩] [⟨1, 1, 1, false⟩]
        (some "confirm release 1")).1) ↔ some "confirm release 1" = some (confirmToken 1)) ∧
    (some "confirm release 1" = none →
       Event.send .timeoutAborted ∈ (releaseall ⟨[], [], [], fun _ => [], fun _ => none⟩
        (fun _ _ => 0) {} 5 [⟨1, 1, 1, false⟩] [⟨1, 1, 1, false⟩]
        (some "confirm release 1")).1 ∧
       (releaseall ⟨[], [], [], fun _ => [], fun _ => none⟩
        (fun _ _ => 0) {} 5 [⟨1, 1, 1, false⟩] [⟨1, 1, 1, false⟩]
        (some "confirm release 1")).2 = [⟨1, 1, 1, false⟩]) ∧
    (∀ r, some "confirm release 1" = some r → r ≠ confirmToken 1 →
       Event.send .aborted ∈ (releaseall ⟨[], [], [], fun _ => [], fun _ => none⟩
        (fun _ _ => 0) {} 5 [⟨1, 1, 1, false⟩] [⟨1, 1, 1, false⟩]
        (some "confirm release 1")).1 ∧
       (releaseall ⟨[], [], [], fun _ => [], fun _ => none⟩
        (fun _ _ => 0) {} 5 [⟨1, 1, 1, false⟩] [⟨1, 1, 1, false⟩]
        (some "confirm release 1")).2 = [⟨1, 1, 1, false⟩]) :=
  c7_confirmation_gates_mutation ⟨[], [], [], fun _ => [], fun _ => none⟩ (fun _ _ => 0)
    {} 5 [⟨1, 1, 1, false⟩] [⟨1, 1, 1, false⟩] (some "confirm release 1") [] 1
    rfl rfl (by decide)

/-! ## Claim C9 -/

lemma opStages_shape (f : IVFlag) (ops : List String) :
    ∀ s ∈ opStages f ops,
      (∃ g, s = Stage.addFields g) ∨ (∃ g op n, s = Stage.matchIV g op n) := by
  intro s hs
  simp only [opStages] at hs
  split at hs
  · simp only [List.mem_cons, List.not_mem_nil, or_false] at hs
    rcases hs with rfl | rfl
    · exact Or.inl ⟨f, rfl⟩
    · exact Or.inr ⟨f, _, _, rfl⟩
  · split at hs
    · simp only [List.mem_cons, List.not_mem_nil, or_false] at hs
      rcases hs with rfl | rfl
      · exact Or.inl ⟨f, rfl⟩
      · exact Or.inr ⟨f, _, _, rfl⟩
    · split at hs
      · simp only [List.mem_cons, List.not_mem_nil, or_false] at hs
        rcases hs with rfl | rfl
        · exact Or.inl ⟨f, rfl⟩
        · exact Or.inr ⟨f, _, _, rfl⟩
      · simp at hs

lemma ivParts_shape (fl : Flags) :
    ∀ (fs : List IVFlag) (l : List Stage), ivParts fl fs = .ok (some l) →
      ∀ s ∈ l, (∃ g, s = Stage.addFields g) ∨ (∃ g op n, s = Stage.matchIV g op n) := by
  intro fs
  induction fs with
  | nil =>
    intro l hl s hs
    simp only [ivParts, Except.ok.injEq, Option.some.injEq] at hl
    subst hl
    simp at hs
  | cons f rest ih =>
    intro l hl s hs
    cases hf : fl.ivflag f with
    | none =>
      simp only [ivParts, hf] at hl
      exact ih l hl s hs
    | some text =>
      simp only [ivParts, hf] at hl
      cases hp : parse_numerical_flag text with
      | error e => simp [hp] at hl
      | ok o =>
        cases o with
        | none => simp [hp] at hl
        | some ops =>
          simp only [hp] at hl
          cases hr : ivParts fl rest with
          | error e => simp [hr] at hl
          | ok o2 =>
            cases o2 with
            | none => simp [hr] at hl
            | some l2 =>
              simp only [hr, Except.ok.injEq, Option.some.injEq] at hl
              subst hl
              rcases List.mem_append.mp hs with h | h
              · exact opStages_shape f ops s h
              · exact ih l2 hr s h

/-- C9: `releaseall` registers only the name, type and seven numeric IV
flags, so the filter it compiles can never contain a favorite, level or
rarity-class match stage from user flags: every stage is a type match
(traceable to the `--type` value), a species-id match, or a numeric
computed-field/comparison pair — and the pipeline `releaseall` actually
queries with is exactly that list followed by the two protection stages,
whose final stage is the only favorite-related one. -/
theorem c9_releaseall_flag_surface (gd : Catalog) (ivE : IVFlag → Poke → Int)
    (fl : RAFlags) (selected : Int) (collCount collFetch : List Poke) (reply : Option String)
    (l : List Stage)
    (h : create_filter gd fl.toFlags = .ok (some l)) :
    (∀ s ∈ l,
       s ≠ Stage.matchFavorite ∧
       (∀ n, s ≠ Stage.matchLevel n) ∧
       (∀ ids, s = Stage.matchSpeciesIn ids → ∃ t, fl.type = some t ∧ t ≠ "" ∧
          ids = gd.listType t)) ∧
    (∀ a, Event.countQuery a ∈ (releaseall gd ivE fl selected collCount collFetch reply).1 →
       a = l ++ protections selected) := by
  constructor
  · rw [create_filter_eq_ordered] at h
    unfold spec_ordered_filter at h
    have hbool : ∀ s ∈ boolTypeStages gd fl.toFlags,
        ∃ t, fl.type = some t ∧ t ≠ "" ∧ s = Stage.matchSpeciesIn (gd.listType t) := by
      intro s2 hs2
      unfold boolTypeStages at hs2
      have hmy : fl.toFlags.mythical = false := rfl
      have hle : fl.toFlags.legendary = false := rfl
      have hub : fl.toFlags.ub = false := rfl
      have hfa : fl.toFlags.favorite = false := rfl
      have hth : fl.toFlags.type = fl.type := rfl
      simp only [hmy, hle, hub, hfa, hth, Bool.false_eq_true, if_false,
        List.nil_append, List.append_nil] at hs2
      rcases ht : fl.type with _ | t
      · simp only [ht] at hs2; simp at hs2
      · simp only [ht] at hs2
        by_cases he : t = ""
        · rw [if_neg (fun hc => hc he)] at hs2
          simp at hs2
        · rw [if_pos he] at hs2
          simp only [List.mem_singleton] at hs2
          exact ⟨t, rfl, he, hs2⟩
    have hshape : ∀ s ∈ l,
        (∃ t, fl.type = some t ∧ t ≠ "" ∧ s = Stage.matchSpeciesIn (gd.listType t)) ∨
        (∃ sid, s = Stage.matchSpeciesId sid) ∨
        (∃ g, s = Stage.addFields g) ∨ (∃ g op n, s = Stage.matchIV g op n) := by
      intro s hs
      have hlv : fl.toFlags.level = none := rfl
      rcases hn : fl.toFlags.name with _ | n
      · simp only [hn] at h
        cases hiv : ivParts fl.toFlags FILTER_BY_NUMERICAL with
        | error e => simp [hiv] at h
        | ok o =>
          cases o with
          | none => simp [hiv] at h
          | some ivs =>
            simp only [hiv, hlv, List.append_nil, Except.ok.injEq, Option.some.injEq] at h
            subst h
            rcases List.mem_append.mp hs with h2 | h2
            · exact Or.inl (hbool s h2)
            · rcases ivParts_shape fl.toFlags FILTER_BY_NUMERICAL ivs hiv s h2 with h3 | h3
              · exact Or.inr (Or.inr (Or.inl h3))
              · exact Or.inr (Or.inr (Or.inr h3))
      · simp only [hn] at h
        cases hsid : gd.speciesByName n with
        | none => simp [hsid] at h
        | some sid =>
          simp only [hsid] at h
          cases hiv : ivParts fl.toFlags FILTER_BY_NUMERICAL with
          | error e => simp [hiv] at h
          | ok o =>
            cases o with
            | none => simp [hiv] at h
            | some ivs =>
              simp only [hiv, hlv, List.append_nil, Except.ok.injEq, Option.some.injEq] at h
              subst h
              rcases List.mem_append.mp hs with h2 | h2
              · rcases List.mem_append.mp h2 with h3 | h3
                · exact Or.inl (hbool s h3)
                · simp only [List.mem_singleton] at h3
                  exact Or.inr (Or.inl ⟨sid, h3⟩)
              · rcases ivParts_shape fl.toFlags FILTER_BY_NUMERICAL ivs hiv s h2 with h3 | h3
                · exact Or.inr (Or.inr (Or.inl h3))
                · exact Or.inr (Or.inr (Or.inr h3))
    intro s hs
    rcases hshape s hs with ⟨t, ht, he, rfl⟩ | ⟨sid, rfl⟩ | ⟨g, rfl⟩ | ⟨g, op, n, rfl⟩
    · exact ⟨by simp, by simp, fun ids hids => ⟨t, ht, he, by injection hids with h4; rw [← h4]⟩⟩
    · exact ⟨by simp, by simp, fun ids hids => by cases hids⟩
    · exact ⟨by simp, by simp, fun ids hids => by cases hids⟩
    · exact ⟨by simp, by simp, fun ids hids => by cases hids⟩
  · intro a ha
    unfold releaseall at ha
    simp only [h] at ha
    rcases reply with _ | r
    · split at ha <;> simp_all
    · by_cases hc : r = confirmToken (countMatches ivE (l ++ protections selected) collCount) <;>
        (split at ha <;> (try split at ha) <;> simp_all [hc])

/-- C9 witness: with a type flag set, the compiled releaseall filter is a
single type match stage, and the count pipeline appends the protections. -/
theorem c9_releaseall_flag_surface_witness :
    (∀ s ∈ [Stage.matchSpeciesIn [7]],
       s ≠ Stage.matchFavorite ∧
       (∀ n, s ≠ Stage.matchLevel n) ∧
       (∀ ids, s = Stage.matchSpeciesIn ids → ∃ t,
          ({ type := some "water" } : RAFlags).type = some t ∧ t ≠ "" ∧
          ids = Catalog.listType ⟨[], [], [], fun _ => [7], fun _ => none⟩ t)) ∧
    (∀ a, Event.countQuery a ∈ (releaseall ⟨[], [], [], fun _ => [7], fun _ => none⟩
        (fun _ _ => 0) { type := some "water" } 5 [] [] none).1 →
       a = [Stage.matchSpeciesIn [7]] ++ protections 5) :=
  c9_releaseall_flag_surface ⟨[], [], [], fun _ => [7], fun _ => none⟩ (fun _ _ => 0)
    { type := some "water" } 5 [] [] none [Stage.matchSpeciesIn [7]] rfl

/-! ## Claim C8 -/

/-- C8: whenever the `pokemon` command hands off to the page controller,
the page count it passes is at least 1 (zero-result invocations never
reach the controller) and the requested initial index is at least 0; and
the controller clamp sends any below-range request to page 0 and any
above-range request to the last page, leaving in-range requests
unchanged. -/
theorem c8_pagination_clamped (gd : Catalog) (ivE : IVFlag → Poke → Int) (fl : Flags)
    (page : Int) (orderBy : String) (coll : List Poke) (P : Nat) (i : Int)
    (h : Event.paginate P i ∈ pokemonCmd gd ivE fl page orderBy coll) :
    1 ≤ P ∧ 0 ≤ i ∧
    (∀ j : Int, j < 0 → pageClamp j P = 0) ∧
    ((P : Int) - 1 < i → pageClamp i P = (P : Int) - 1) ∧
    (0 ≤ i → i ≤ (P : Int) - 1 → pageClamp i P = i) := by
  unfold pokemonCmd at h
  by_cases hp : page < 1
  · rw [if_pos hp] at h
    simp at h
  · rw [if_neg hp] at h
    cases hcf : create_filter gd fl with
    | error e => simp only [hcf] at h; simp at h
    | ok o =>
      cases o with
      | none => simp only [hcf] at h; simp at h
      | some aggs0 =>
        simp only [hcf] at h
        by_cases hz : countMatches ivE (aggs0 ++ [.addSorting orderBy, .sortAsc]) coll = 0
        · rw [if_pos hz] at h
          simp at h
        · rw [if_neg hz] at h
          simp only [List.mem_cons, List.not_mem_nil, or_false] at h
          rcases h with h | h | h
          · cases h
          · cases h
          · injection h with hP hi
            have hP1 : 1 ≤ P := by
              rw [hP]
              have : 1 ≤ countMatches ivE (aggs0 ++ [.addSorting orderBy, .sortAsc]) coll :=
                Nat.one_le_iff_ne_zero.mpr hz
              omega
            have hi0 : 0 ≤ i := by rw [hi]; omega
            refine ⟨hP1, hi0, ?_, ?_, ?_⟩
            · intro j hj
              unfold pageClamp
              rw [max_eq_right hj.le]
              exact min_eq_left (by omega)
            · intro hgt
              unfold pageClamp
              rw [max_eq_left hi0]
              exact min_eq_right hgt.le
            · intro h0 h1
              unfold pageClamp
              rw [max_eq_left h0]
              exact min_eq_left h1

/-- C8 witness: requesting page 99 of a one-entry collection passes one
page and requested index 98, which the clamp sends to the last page. -/
theorem c8_pagination_clamped_witness :
    1 ≤ 1 ∧ (0 : Int) ≤ 98 ∧
    (∀ j : Int, j < 0 → pageClamp j 1 = 0) ∧
    (((1 : Nat) : Int) - 1 < 98 → pageClamp 98 1 = ((1 : Nat) : Int) - 1) ∧
    ((0 : Int) ≤ 98 → (98 : Int) ≤ ((1 : Nat) : Int) - 1 → pageClamp 98 1 = 98) :=
  c8_pagination_clamped ⟨[], [], [], fun _ => [], fun _ => none⟩ (fun _ _ => 0)
    {} 99 "number" [⟨1, 1, 1, false⟩] 1 98 (by decide)

/-! ## Claim C10 -/

lemma filter_partition_length (l : List Poke) (f : Poke → Bool) :
    l.length = (l.filter f).length + (l.filter (fun p => !(f p))).length := by
  induction l with
  | nil => rfl
  | cons p rest ih =>
    by_cases hp : f p <;> simp [List.filter_cons, hp, ih] <;> omega

lemma pullNumbers_length_ge (coll : List Poke) (nums : List Int)
    (hnodup : (coll.map Poke.number).Nodup) :
    coll.length ≤ (pullNumbers coll nums).length + nums.length := by
  have hpart := filter_partition_length coll (fun p => decide (¬ p.number ∈ nums))
  have hremoved : (coll.filter (fun p => !(decide (¬ p.number ∈ nums)))).length ≤ nums.length := by
    have hsub : (coll.filter (fun p => !(decide (¬ p.number ∈ nums)))).Sublist coll :=
      List.filter_sublist _
    have hnd : ((coll.filter (fun p => !(decide (¬ p.number ∈ nums)))).map Poke.number).Nodup :=
      hnodup.sublist (hsub.map _)
    have hss : ((coll.filter (fun p => !(decide (¬ p.number ∈ nums)))).map Poke.number) ⊆ nums := by
      intro x hx
      simp only [List.mem_map] at hx
      obtain ⟨p, hp, rfl⟩ := hx
      have := List.of_mem_filter hp
      simpa using this
    calc (coll.filter (fun p => !(decide (¬ p.number ∈ nums)))).length
        = ((coll.filter (fun p => !(decide (¬ p.number ∈ nums)))).map Poke.number).length :=
          (List.length_map _ _).symm
      _ ≤ nums.length := (hnd.subperm hss).length_le
  rw [pullNumbers, hpart]
  exact Nat.add_le_add_left hremoved _

/-- C10: a confirmed `releaseall` fetches exactly one page at offset 0
with limit `num` (the count displayed at confirmation time) and pulls
only the numbers of that page; every entry whose number is not in that
page survives, and at most `num` entries are removed even if the set of
matching entries has grown between the count and the mutation. -/
theorem c10_mutation_bounded (gd : Catalog) (ivE : IVFlag → Poke → Int)
    (fl : RAFlags) (selected : Int) (collCount collFetch : List Poke)
    (aggs0 : List Stage) (num : Nat)
    (h1 : create_filter gd fl.toFlags = .ok (some aggs0))
    (h2 : countMatches ivE (aggs0 ++ protections selected) collCount = num)
    (h3 : num ≠ 0)
    (hnodup : (collFetch.map Poke.number).Nodup) :
    Event.fetchList 0 num (aggs0 ++ protections selected) ∈
      (releaseall gd ivE fl selected collCount collFetch (some (confirmToken num))).1 ∧
    Event.updateMember ((fetchPage ivE (aggs0 ++ protections selected) 0 num collFetch).map
        (fun d => d.poke.number)) ∈
      (releaseall gd ivE fl selected collCount collFetch (some (confirmToken num))).1 ∧
    (releaseall gd ivE fl selected collCount collFetch (some (confirmToken num))).2 =
      pullNumbers collFetch
        ((fetchPage ivE (aggs0 ++ protections selected) 0 num collFetch).map
          (fun d => d.poke.number)) ∧
    (∀ p ∈ collFetch,
       p.number ∉ ((fetchPage ivE (aggs0 ++ protections selected) 0 num collFetch).map
         (fun d => d.poke.number)) →
       p ∈ (releaseall gd ivE fl selected collCount collFetch (some (confirmToken num))).2) ∧
    collFetch.length ≤
      (releaseall gd ivE fl selected collCount collFetch (some (confirmToken num))).2.length
        + num := by
  subst h2
  have hstep : releaseall gd ivE fl selected collCount collFetch
      (some (confirmToken (countMatches ivE (aggs0 ++ protections selected) collCount))) =
    ([.fetchMemberInfo, .consolePrint,
      .countQuery (aggs0 ++ protections selected),
      .send (.confirmPrompt (countMatches ivE (aggs0 ++ protections selected) collCount)),
      .send (.releasing (countMatches ivE (aggs0 ++ protections selected) collCount)),
      .fetchList 0 (countMatches ivE (aggs0 ++ protections selected) collCount)
        (aggs0 ++ protections selected),
      .updateMember ((fetchPage ivE (aggs0 ++ protections selected) 0
          (countMatches ivE (aggs0 ++ protections selected) collCount) collFetch).map
          fun d => d.poke.number),
      .send (.released (countMatches ivE (aggs0 ++ protections selected) collCount))],
     pullNumbers collFetch ((fetchPage ivE (aggs0 ++ protections selected) 0
        (countMatches ivE (aggs0 ++ protections selected) collCount) collFetch).map
        fun d => d.poke.number)) := by
    unfold releaseall
    simp only [h1]
    rw [if_neg h3]
    simp
  rw [hstep]
  refine ⟨by simp, by simp, rfl, ?_, ?_⟩
  · intro p hp hnp
    rw [pullNumbers, List.mem_filter]
    exact ⟨hp, by simpa using hnp⟩
  · dsimp only
    have hlen := pullNumbers_length_ge collFetch
      ((fetchPage ivE (aggs0 ++ protections selected) 0
        (countMatches ivE (aggs0 ++ protections selected) collCount) collFetch).map
        fun d => d.poke.number) hnodup
    have hnums : ((fetchPage ivE (aggs0 ++ protections selected) 0
        (countMatches ivE (aggs0 ++ protections selected) collCount) collFetch).map
        fun d => d.poke.number).length ≤
        countMatches ivE (aggs0 ++ protections selected) collCount := by
      rw [List.length_map]
      unfold fetchPage
      exact List.length_take_le _ _
    omega

/-- C10 witness: the collection grows from one to two matching entries
between count and mutation, yet only the one fetched number is pulled and
the second entry survives. -/
theorem c10_mutation_bounded_witness :
    Event.fetchList 0 1 ([] ++ protections 99) ∈
      (releaseall ⟨[], [], [], fun _ => [], fun _ => none⟩ (fun _ _ => 0) {} 99
        [⟨1, 1, 1, false⟩] [⟨1, 1, 1, false⟩, ⟨2, 1, 1, false⟩]
        (some (confirmToken 1))).1 ∧
    Event.updateMember ((fetchPage (fun _ _ => 0) ([] ++ protections 99) 0 1
        [⟨1, 1, 1, false⟩, ⟨2, 1, 1, false⟩]).map (fun d => d.poke.number)) ∈
      (releaseall ⟨[], [], [], fun _ => [], fun _ => none⟩ (fun _ _ => 0) {} 99
        [⟨1, 1, 1, false⟩] [⟨1, 1, 1, false⟩, ⟨2, 1, 1, false⟩]
        (some (confirmToken 1))).1 ∧
    (releaseall ⟨[], [], [], fun _ => [], fun _ => none⟩ (fun _ _ => 0) {} 99
        [⟨1, 1, 1, false⟩] [⟨1, 1, 1, false⟩, ⟨2, 1, 1, false⟩]
        (some (confirmToken 1))).2 =
      pullNumbers [⟨1, 1, 1, false⟩, ⟨2, 1, 1, false⟩]
        ((fetchPage (fun _ _ => 0) ([] ++ protections 99) 0 1
          [⟨1, 1, 1, false⟩, ⟨2, 1, 1, false⟩]).map (fun d => d.poke.number)) ∧
    (∀ p ∈ ([⟨1, 1, 1, false⟩, ⟨2, 1, 1, false⟩] : List Poke),
       p.number ∉ ((fetchPage (fun _ _ => 0) ([] ++ protections 99) 0 1
         [⟨1, 1, 1, false⟩, ⟨2, 1, 1, false⟩]).map (fun d => d.poke.number)) →
       p ∈ (releaseall ⟨[], [], [], fun _ => [], fun _ => none⟩ (fun _ _ => 0) {} 99
        [⟨1, 1, 1, false⟩] [⟨1, 1, 1, false⟩, ⟨2, 1, 1, false⟩]
        (some (confirmToken 1))).2) ∧
    ([⟨1, 1, 1, false⟩, ⟨2, 1, 1, false⟩] : List Poke).length ≤
      (releaseall ⟨[], [], [], fun _ => [], fun _ => none⟩ (fun _ _ => 0) {} 99
        [⟨1, 1, 1, false⟩] [⟨1, 1, 1, false⟩, ⟨2, 1, 1, false⟩]
        (some (confirmToken 1))).2.length + 1 :=
  c10_mutation_bounded ⟨[], [], [], fun _ => [], fun _ => none⟩ (fun _ _ => 0) {} 99
    [⟨1, 1, 1, false⟩] [⟨1, 1, 1, false⟩, ⟨2, 1, 1, false⟩] [] 1 rfl rfl
    (by decide) (by decide)

end Poketwo
